import Mathlib

/-
Verification of endrawing.py: a script that generates General Arrangement
drawing metadata (sheets, plan/elevation/location-plan drawing annotations,
room labels) for the IfcBuildings of an IFC model.

Shallow embedding conventions:
  * Python floats are modelled as exact rationals (ℚ).
  * The IFC model is modelled by the data the script actually reads:
    buildings with a name, their storeys (name, placement z translation,
    decomposition relationships containing spaces) and the IfcElements
    located in them (their local-placement translations).  The
    ifcopenshell selector/placement utilities are external library code;
    `filter_elements(f, 'IfcElement, location="<building>"')` is modelled
    as the building's `elements` list, and
    `get_local_placement(x.ObjectPlacement)[i][3]` as the stored
    translation components.
  * The side effects of the ifcopenshell object-creation API are
    modelled by returning records of the created entities
    (createIfcDocumentInformation arguments in IFC4 attribute order,
    IfcAnnotation name/type/placement, property sets as key/value lists).
  * Python runtime errors (IndexError in get_bbox's midpoint computation
    when fewer than two elements contributed, and the resulting failure
    of DrawingGenerator.__init__) are modelled with Option: `none` is a
    crash.
-/

namespace Endrawing

/-- A 3-component translation vector (Python float triple, modelled in ℚ). -/
structure Point where
  x : ℚ
  y : ℚ
  z : ℚ
deriving DecidableEq, Repr

/-- An IfcElement as far as the script reads it: the translation column of
`get_local_placement(item.ObjectPlacement)` (endrawing.py lines 100-108). -/
structure Element where
  px : ℚ
  py : ℚ
  pz : ℚ
deriving DecidableEq, Repr

/-- An IfcSpace as far as the script reads it: the vertices of its created
shape (external geometry kernel output) and the translation of its local
placement, both consumed by `GeometryUtils.get_centroid`. -/
structure SpaceEnt where
  verts : List Point
  px : ℚ
  py : ℚ
  pz : ℚ
deriving DecidableEq, Repr

/-- An IfcBuildingStorey: its Name, the z translation of its local placement
(endrawing.py line 746 and 472), and its IsDecomposedBy inverse attribute,
each relationship carrying its RelatedObjects spaces (line 523). -/
structure Storey where
  name : String
  elevation : ℚ
  isDecomposedBy : List (List SpaceEnt)
deriving DecidableEq, Repr

/-- An IfcBuilding: its Name, the storeys located in it (the result of
`filter_elements(f, 'IfcBuildingStorey, location="<name>"')`, line 740), and
the IfcElements located in it (the result of
`filter_elements(f, 'IfcElement, location="<name>"')`, line 96). -/
structure Building where
  name : String
  storeys : List Storey
  elements : List Element
deriving DecidableEq, Repr

/-- The IFC model as read by the script: its IfcBuildings. -/
structure IfcFile where
  buildings : List Building
deriving DecidableEq, Repr

/-! Natural sort.  `natsorted(..., key=lambda x: x.Name)` (endrawing.py line
265) comes from the external `natsort` package: strings are split into
alternating non-digit/digit runs, digit runs compare as unsigned integers,
and every key starts with a (possibly empty) string run so that aligned
positions always hold the same kind of chunk. -/

/-- A maximal run of digit or of non-digit characters. -/
inductive Chunk
  | num (ds : List Char)
  | txt (cs : List Char)
deriving DecidableEq, Repr

/-- Split a character list into maximal digit / non-digit runs. -/
def chunkify : List Char → List Chunk
  | [] => []
  | c :: cs =>
    let rest := chunkify cs
    if c.isDigit then
      match rest with
      | Chunk.num ds :: r => Chunk.num (c :: ds) :: r
      | _ => Chunk.num [c] :: rest
    else
      match rest with
      | Chunk.txt xs :: r => Chunk.txt (c :: xs) :: r
      | _ => Chunk.txt [c] :: rest

/-- Value of a digit run as an unsigned integer (leading zeros allowed). -/
def digitsVal (ds : List Char) : Nat :=
  ds.foldl (fun a c => a * 10 + (c.toNat - 48)) 0

/-- The comparison key of one chunk: text chunks on the left, numeric on the
right. -/
def chunkVal : Chunk → String ⊕ Nat
  | Chunk.num ds => Sum.inr (digitsVal ds)
  | Chunk.txt cs => Sum.inl (String.mk cs)

/-- The natsort key of a string: chunk values, with an empty text chunk
prefixed when the string starts with a digit, so keys alternate
text, number, text, ... starting with text. -/
def natKey (s : String) : List (String ⊕ Nat) :=
  let ks := (chunkify s.data).map chunkVal
  match ks with
  | Sum.inr _ :: _ => Sum.inl "" :: ks
  | _ => ks

/-- Compare two chunk values (the mixed cases never arise between aligned
natsort keys, which alternate starting with a text chunk). -/
def cmpChunk : String ⊕ Nat → String ⊕ Nat → Ordering
  | Sum.inl a, Sum.inl b => compare a b
  | Sum.inl _, Sum.inr _ => Ordering.gt
  | Sum.inr _, Sum.inl _ => Ordering.lt
  | Sum.inr a, Sum.inr b => compare a b

/-- Lexicographic comparison of natsort keys; a shorter key that is a
prefix of the longer one compares smaller, as for Python tuples. -/
def cmpKey : List (String ⊕ Nat) → List (String ⊕ Nat) → Ordering
  | [], [] => Ordering.eq
  | [], _ :: _ => Ordering.lt
  | _ :: _, [] => Ordering.gt
  | a :: xs, b :: ys =>
    match cmpChunk a b with
    | Ordering.eq => cmpKey xs ys
    | o => o

/-- Natural-order comparison of two strings. -/
def natCmp (a b : String) : Ordering :=
  cmpKey (natKey a) (natKey b)

/-- The natural sort order on buildings, keyed by Name as in
`natsorted(ifc_file.by_type("IfcBuilding"), key=lambda x: x.Name)`. -/
def natRel (a b : Building) : Prop :=
  natCmp a.name b.name ≠ Ordering.gt

instance : DecidableRel natRel := fun a b => by
  unfold natRel
  infer_instance

/-- The sorted building list of `DrawingGenerator.__init__`
(endrawing.py lines 265-267); a stable insertion sort models Python's
stable `sorted` used by natsort. -/
def natsortBuildings (bs : List Building) : List Building :=
  List.insertionSort natRel bs

/-! Geometry utilities (endrawing.py class GeometryUtils). -/

/-- The translation column of an element's local placement (lines 101-108). -/
def elemPoint (e : Element) : Point :=
  ⟨e.px, e.py, e.pz⟩

/-- All element placements gathered over the given spatial elements, in
iteration order: the nested loops of lines 95-108. -/
def elementPoints (bs : List Building) : List Point :=
  (bs.map (fun b => b.elements.map elemPoint)).flatten

/-- Body of the bounding-box loop after the `x == 0.0 or y == 0.0` guard
(lines 113-127): the first contributing point initialises `bbox_min`, the
second initialises `bbox_max`, later ones update both componentwise. -/
def bboxFoldAll (st : Option Point × Option Point) (p : Point) :
    Option Point × Option Point :=
  match st with
  | (none, mx) => (some p, mx)
  | (some mn, none) => (some mn, some p)
  | (some mn, some mx) =>
      (some ⟨min mn.x p.x, min mn.y p.y, min mn.z p.z⟩,
       some ⟨max mx.x p.x, max mx.y p.y, max mx.z p.z⟩)

/-- One iteration of the bounding-box loop (lines 110-127): a point whose x
or y translation is exactly 0.0 is skipped (`continue`). -/
def bboxFold (st : Option Point × Option Point) (p : Point) :
    Option Point × Option Point :=
  if p.x = 0 ∨ p.y = 0 then st else bboxFoldAll st p

/-- GeometryUtils.get_bbox (lines 82-136).  The midpoint computation indexes
`bbox_min[0] ...` and `bbox_max[0] ...`; when either list stayed empty Python
raises IndexError, modelled as `none`. -/
def get_bbox (bs : List Building) : Option (Point × Point × Point) :=
  match (elementPoints bs).foldl bboxFold (none, none) with
  | (some mn, some mx) =>
      some (mn, ⟨(mn.x + mx.x) / 2, (mn.y + mx.y) / 2, (mn.z + mx.z) / 2⟩, mx)
  | _ => none

/-- A point contributes to the bounding box iff both its x and y
translations are nonzero (the negation of the skip guard on line 110). -/
def contribP (p : Point) : Bool :=
  decide (¬(p.x = 0 ∨ p.y = 0))

/-- The placements that contribute to `get_bbox` for the given spatial
elements. -/
def contribPoints (bs : List Building) : List Point :=
  (elementPoints bs).filter contribP

/-- Variant of `get_bbox` that folds the unguarded loop body over exactly
the contributing placements; claim C7 compares `get_bbox` against it. -/
def get_bbox_contribOnly (bs : List Building) : Option (Point × Point × Point) :=
  match (contribPoints bs).foldl bboxFoldAll (none, none) with
  | (some mn, some mx) =>
      some (mn, ⟨(mn.x + mx.x) / 2, (mn.y + mx.y) / 2, (mn.z + mx.z) / 2⟩, mx)
  | _ => none

/-- GeometryUtils.get_centroid (lines 139-171): the mean of the element's
shape vertices plus the translation of its local placement. -/
def get_centroid (sp : SpaceEnt) : Point :=
  let n : ℚ := sp.verts.length
  let sx := (sp.verts.map Point.x).sum
  let sy := (sp.verts.map Point.y).sum
  let sz := (sp.verts.map Point.z).sum
  ⟨sx / n + sp.px, sy / n + sp.py, sz / n + sp.pz⟩

/-! Property sets.  A pset is modelled by its ordered key/value list;
`edit_pset` applies a dictionary of updates, overwriting an existing key in
place and appending a fresh one. -/

/-- A property value: the script only writes strings and booleans. -/
inductive PVal
  | s (v : String)
  | b (v : Bool)
deriving DecidableEq, Repr

/-- A property set's contents. -/
abbrev Props := List (String × PVal)

/-- Overwrite key `k` in place if present, else append `(k, v)`. -/
def upsert (ps : Props) (k : String) (v : PVal) : Props :=
  if ps.any (fun p => p.1 = k) then
    ps.map (fun p => if p.1 = k then (k, v) else p)
  else ps ++ [(k, v)]

/-- Apply `api.pset.edit_pset` updates in order. -/
def editPset (ps : Props) (updates : Props) : Props :=
  updates.foldl (fun acc kv => upsert acc kv.1 kv.2) ps

/-- Look a property up by name. -/
def psetLookup (ps : Props) (k : String) : Option PVal :=
  (ps.find? (fun p => p.1 = k)).map Prod.snd

/-- Python's `int()` on a real value: truncation toward zero
(`str(int(scale))`, line 286). -/
def pyInt (q : ℚ) : Int :=
  if 0 ≤ q then q.floor else q.ceil

/-- Python's `str.zfill`: left-pad with zeros to the given width
(`str(sheet_id).zfill(3)`, line 730; our inputs carry no sign). -/
def zfill (w : Nat) (s : String) : String :=
  if w ≤ s.length then s else String.mk (List.replicate (w - s.length) '0') ++ s

/-! Created entities.  Each ifcopenshell creation call is modelled by a
record of the arguments the script passes. -/

/-- The arguments of `createIfcDocumentInformation` in IFC4 attribute order:
Identification, Name, Description, Location, Purpose, IntendedUse, Scope
(the script always passes the middle three as None). -/
structure DocInfo where
  identification : Option String
  name : Option String
  description : Option String
  location : Option String
  purpose : Option String
  intendedUse : Option String
  scope : Option String
deriving DecidableEq, Repr

/-- The output of `create_sheet_info` (lines 399-442): the sheet's document
information plus the LAYOUT and TITLEBLOCK document references created for
it. -/
structure SheetDoc where
  info : DocInfo
  layoutRef : String
  titleblockRef : String
deriving DecidableEq, Repr

/-- A drawing IfcAnnotation together with everything `attach_sheet`
(lines 353-397) and `create_drawing_group` (lines 329-351) record for it:
its final EPset_Drawing contents, the per-drawing document information, the
SVG path placed in the sheet under `str(drawing_id)`, and the DRAWING group
named after it. -/
structure DrawingRec where
  name : String
  objType : String
  point : Point
  drawingId : Nat
  props : Props
  docInfo : DocInfo
  svgPath : String
  groupName : String
deriving DecidableEq, Repr

/-- A room-label IfcAnnotation from `create_space_labels` (lines 512-572):
name/type TEXT, its placement, the space it is assigned to via
`api.drawing.assign_product`, and its EPset_Annotation contents.  Membership
in the storey's plan-drawing group is recorded structurally: the label list
sits next to its plan drawing in `SheetOut.plans`. -/
structure LabelRec where
  name : String
  objType : String
  point : Point
  space : SpaceEnt
  annProps : Props
deriving DecidableEq, Repr

/-- Everything generated for one building: its sheet, the plan drawings with
their room labels, the four elevation drawings, and the optional location
plan. -/
structure SheetOut where
  sheet : SheetDoc
  plans : List (DrawingRec × List LabelRec)
  elevations : List DrawingRec
  locationPlan : Option DrawingRec
deriving DecidableEq, Repr

/-- DrawingGenerator state after `__init__` (lines 248-274): the natural-
sorted buildings, the overall bounding box and its dimensions.  Contexts and
`unit_scale_mm` are set up there too but never read afterwards, so they are
not modelled. -/
structure Generator where
  file : IfcFile
  scale : ℚ
  titleblock : String
  buildings : List Building
  bboxAllMin : Point
  bboxAllMid : Point
  bboxAllMax : Point
  dimAllX : ℚ
  dimAllY : ℚ
  dimAllZ : ℚ
deriving DecidableEq, Repr

/-- DrawingGenerator.__init__ (lines 248-274); `none` models the IndexError
raised inside `get_bbox` when fewer than two placements contribute, which
aborts construction.  The Python defaults are scale=100, titleblock="A2". -/
def mkGenerator (f : IfcFile) (scale : ℚ) (titleblock : String) : Option Generator :=
  let bs := natsortBuildings f.buildings
  match get_bbox bs with
  | none => none
  | some (mn, mid, mx) =>
      some ⟨f, scale, titleblock, bs, mn, mid, mx,
            mx.x - mn.x + 2, mx.y - mn.y + 2, mx.z - mn.z + 2⟩

/-- DrawingGenerator.create_drawing_pset (lines 276-311): the EPset_Drawing
contents written for a drawing of the given scale. -/
def create_drawing_pset (scale : ℚ) : Props :=
  let scaleStr := toString (pyInt scale)
  editPset []
    [("TargetView", PVal.s "PLAN_VIEW"),
     ("Scale", PVal.s ("1/" ++ scaleStr)),
     ("HumanScale", PVal.s ("1:" ++ scaleStr)),
     ("HasUnderlay", PVal.b false),
     ("HasLinework", PVal.b true),
     ("HasAnnotation", PVal.b true),
     ("GlobalReferencing", PVal.b true),
     ("Stylesheet", PVal.s "drawings/assets/default.css"),
     ("Markers", PVal.s "drawings/assets/markers.svg"),
     ("Symbols", PVal.s "drawings/assets/symbols.svg"),
     ("Patterns", PVal.s "drawings/assets/patterns.svg"),
     ("ShadingStyles", PVal.s "drawings/assets/shading_styles.json"),
     ("CurrentShadingStyle", PVal.s "Blender Default")]

/-- DrawingGenerator.set_elevation_properties (lines 313-327). -/
def set_elevation_properties (ps : Props) (buildingName : String) : Props :=
  editPset ps
    [("TargetView", PVal.s "ELEVATION_VIEW"),
     ("Include", PVal.s ("IfcTypeProduct, IfcProduct, location=\"" ++ buildingName ++ "\""))]

/-- The per-drawing document information created by `attach_sheet`
(lines 361-369). -/
def attachDocInfo (n : String) : DocInfo :=
  ⟨some n, some n, none, none, none, none, some "DRAWING"⟩

/-- DrawingGenerator.create_sheet_info (lines 399-442). -/
def create_sheet_info (titleblock identification buildingName : String) : SheetDoc :=
  { info := ⟨some identification, some buildingName, some "General Arrangement",
             none, none, none, some "SHEET"⟩,
    layoutRef := "layouts/" ++ identification ++ " - " ++ buildingName ++ ".svg",
    titleblockRef := "layouts/titleblocks/" ++ titleblock ++ ".svg" }

/-- DrawingGenerator.create_plan_drawing (lines 444-510): camera above the
building bbox midpoint at `elevation + 1.8`, EPset_Drawing at the given
scale with TargetView re-set to PLAN_VIEW, attached to the sheet under the
current drawing id, grouped under the storey name; returns the incremented
drawing id.  The camera-shape solid itself is external geometry and not
modelled. -/
def create_plan_drawing (st : Storey) (bb : Point × Point × Point)
    (scale : ℚ) (drawingId : Nat) : Nat × DrawingRec :=
  let mid := bb.2.1
  let pt : Point := ⟨mid.x, mid.y, st.elevation + 1.8⟩
  let ps := editPset (create_drawing_pset scale) [("TargetView", PVal.s "PLAN_VIEW")]
  (drawingId + 1,
   { name := st.name, objType := "DRAWING", point := pt, drawingId := drawingId,
     props := ps, docInfo := attachDocInfo st.name,
     svgPath := "drawings/" ++ st.name ++ ".svg", groupName := st.name })

/-- DrawingGenerator.create_space_labels (lines 512-572): nothing when the
storey has no decomposition; otherwise one TEXT annotation per space of the
first decomposition relationship, at the space centroid with
`z = elevation + 0.1`, assigned to the space, with
EPset_Annotation Classes=header. -/
def create_space_labels (st : Storey) (elevation : ℚ) : List LabelRec :=
  match st.isDecomposedBy with
  | [] => []
  | spaces :: _ =>
      spaces.map (fun sp =>
        let c := get_centroid sp
        { name := "TEXT", objType := "TEXT",
          point := ⟨c.x, c.y, elevation + 0.1⟩,
          space := sp,
          annProps := editPset [] [("Classes", PVal.s "header")] })

/-- The camera point of an elevation drawing (lines 599-630).  The script's
if/elif chain leaves `point` unbound for any other direction string (a
NameError); the final arm here is unreachable from the call site, which only
passes the four compass directions. -/
def elevationPoint (bb : Point × Point × Point) (direction : String) : Point :=
  let mn := bb.1
  let mid := bb.2.1
  let mx := bb.2.2
  if direction = "NORTH" then ⟨mid.x, mx.y + 0.5, mid.z⟩
  else if direction = "SOUTH" then ⟨mid.x, mn.y - 0.5, mid.z⟩
  else if direction = "WEST" then ⟨mn.x - 0.5, mid.y, mid.z⟩
  else if direction = "EAST" then ⟨mx.x + 0.5, mid.y, mid.z⟩
  else ⟨0, 0, 0⟩

/-- DrawingGenerator.create_elevation_drawing (lines 574-660): named
`<building> <direction>`, EPset_Drawing at the generator scale then
overwritten by `set_elevation_properties`; returns the incremented id. -/
def create_elevation_drawing (g : Generator) (b : Building)
    (bb : Point × Point × Point) (direction : String) (drawingId : Nat) :
    Nat × DrawingRec :=
  let nm := b.name ++ " " ++ direction
  let ps := set_elevation_properties (create_drawing_pset g.scale) b.name
  (drawingId + 1,
   { name := nm, objType := "DRAWING", point := elevationPoint bb direction,
     drawingId := drawingId, props := ps, docInfo := attachDocInfo nm,
     svgPath := "drawings/" ++ nm ++ ".svg", groupName := nm })

/-- DrawingGenerator.create_location_plan (lines 662-721): named
`<building> LOCATION`, camera at the centre of the all-buildings bounding
box above its maximum height, EPset_Drawing at ten times the generator
scale with TargetView re-set to PLAN_VIEW plus a location Include filter. -/
def create_location_plan (g : Generator) (b : Building) (drawingId : Nat) :
    Nat × DrawingRec :=
  let pt : Point := ⟨g.bboxAllMid.x, g.bboxAllMid.y, g.bboxAllMax.z + 1⟩
  let nm := b.name ++ " LOCATION"
  let locationScale := g.scale * 10
  let ps := editPset (create_drawing_pset locationScale)
    [("TargetView", PVal.s "PLAN_VIEW"),
     ("Include", PVal.s ("IfcSite + IfcRoof, IfcWall, IfcSlab, location=\"" ++ b.name ++ "\""))]
  (drawingId + 1,
   { name := nm, objType := "DRAWING", point := pt, drawingId := drawingId,
     props := ps, docInfo := attachDocInfo nm,
     svgPath := "drawings/" ++ nm ++ ".svg", groupName := nm })

/-! The storey dictionary of `generate_drawings` (lines 739-746):
`storeys[local_placement[2][3]] = ifc_storey` keyed by elevation, so a later
storey overwrites an earlier one at the same elevation. -/

/-- Python dict assignment: overwrite in place when the key exists, append
otherwise. -/
def dictInsert (k : ℚ) (v : Storey) (d : List (ℚ × Storey)) : List (ℚ × Storey) :=
  if d.any (fun p => p.1 = k) then
    d.map (fun p => if p.1 = k then (k, v) else p)
  else d ++ [(k, v)]

/-- The storey dictionary built over a building's storeys in filter order. -/
def buildDict (storeys : List Storey) : List (ℚ × Storey) :=
  storeys.foldl (fun d st => dictInsert st.elevation st d) []

/-- Python dict lookup (the keys of a dict are distinct, so the first match
is the only one). -/
def dictLookup : List (ℚ × Storey) → ℚ → Option Storey
  | [], _ => none
  | p :: rest, k => if p.1 = k then some p.2 else dictLookup rest k

/-- The last storey of the list whose elevation is `k`, if any — claim C10's
"the last one encountered". -/
def lastWith (l : List Storey) (k : ℚ) : Option Storey :=
  l.foldl (fun a st => if st.elevation = k then some st else a) none

/-- Ascending order on dictionary entries by elevation key, as
`sorted(list(storeys.keys()))` (line 752). -/
def keyRel (p q : ℚ × Storey) : Prop :=
  p.1 ≤ q.1

instance : DecidableRel keyRel := fun p q => by
  unfold keyRel
  infer_instance

instance : IsTotal (ℚ × Storey) keyRel :=
  ⟨fun p q => le_total p.1 q.1⟩

instance : IsTrans (ℚ × Storey) keyRel :=
  ⟨fun _ _ _ h1 h2 => le_trans h1 h2⟩

/-- The (elevation, storey) pairs that get plan drawings, in ascending
elevation order.  The keys of the dictionary are distinct, so iterating its
entries sorted by key is exactly Python's
`for elevation in sorted(list(storeys.keys())): storey = storeys[elevation]`. -/
def planEntries (b : Building) : List (ℚ × Storey) :=
  List.insertionSort keyRel (buildDict b.storeys)

/-- The plan-drawing loop (lines 752-763), threading the drawing id. -/
def plansLoop (bb : Point × Point × Point) (scale : ℚ) :
    List (ℚ × Storey) → Nat → Nat × List (DrawingRec × List LabelRec)
  | [], i0 => (i0, [])
  | kv :: rest, i0 =>
      let pr := create_plan_drawing kv.2 bb scale i0
      let labels := create_space_labels kv.2 kv.1
      let tail := plansLoop bb scale rest pr.1
      (tail.1, (pr.2, labels) :: tail.2)

/-- The elevation-drawing loop (lines 766-773). -/
def elevLoop (g : Generator) (b : Building) (bb : Point × Point × Point) :
    List String → Nat → Nat × List DrawingRec
  | [], i0 => (i0, [])
  | d :: rest, i0 =>
      let pr := create_elevation_drawing g b bb d i0
      let tail := elevLoop g b bb rest pr.1
      (tail.1, pr.2 :: tail.2)

/-- One iteration of `generate_drawings`'s building loop (lines 727-779):
sheet `A<sheet_id zero-padded to 3>`, plan drawings from the storey
dictionary in ascending elevation order starting at drawing id 0, the four
elevations NORTH, SOUTH, WEST, EAST, and a location plan when the model has
more than one building; `none` models the IndexError out of
`get_bbox(ifc_file, [building])`. -/
def processBuilding (g : Generator) (sheetId : Nat) (b : Building) : Option SheetOut :=
  let identification := "A" ++ zfill 3 (toString sheetId)
  match get_bbox [b] with
  | none => none
  | some bb =>
      let plansRes := plansLoop bb g.scale (planEntries b) 0
      let elevsRes := elevLoop g b bb ["NORTH", "SOUTH", "WEST", "EAST"] plansRes.1
      some { sheet := create_sheet_info g.titleblock identification b.name,
             plans := plansRes.2,
             elevations := elevsRes.2,
             locationPlan :=
               if 1 < g.buildings.length then
                 some (create_location_plan g b elevsRes.1).2
               else none }

/-- Collect an Option for every list entry; any `none` (a Python exception)
aborts the whole run. -/
def optList : List (Option α) → Option (List α)
  | [] => some []
  | none :: _ => none
  | some a :: rest => (optList rest).map (fun l => a :: l)

/-- DrawingGenerator.generate_drawings (lines 723-779): the building loop
with `sheet_id` incremented to 1, 2, ... before each building. -/
def generate_drawings (g : Generator) : Option (List SheetOut) :=
  optList (g.buildings.enum.map (fun ib => processBuilding g (ib.1 + 1) ib.2))

/-! The `main` entry point (lines 782-799), modelled as the trace of its
externally visible actions. -/

/-- The externally visible actions of `main`. -/
inductive MainEvent
  | printed (msg : String)
  | exited (code : Nat)
  | openedModel (path : String)
  | generated
  | crashed
  | wroteModel (path : String)
deriving DecidableEq, Repr

/-- Construct the generator with the Python defaults (scale=100,
titleblock="A2", as in `DrawingGenerator(ifc_file)`) and run
generate_drawings on a model. -/
def pipelineOf (f : IfcFile) : Option (List SheetOut) :=
  (mkGenerator f 100 "A2").bind generate_drawings

/-- Run drawing generation on a model: the `generated` action, or `crashed`
when the pipeline raises. -/
def runGeneration (f : IfcFile) : List MainEvent :=
  match pipelineOf f with
  | some _ => [MainEvent.generated]
  | none => [MainEvent.crashed]

/-- main (lines 782-799).  `bonsaiImportOk` says whether `import bonsai.tool`
succeeds; `hostModel` is the in-memory model of the host application;
`loadModel` is the file system as seen by `ifcopenshell.open`.  In hosted
mode the command line is never consulted and nothing is written; in
standalone mode `sys.argv` is `argv0 :: args` and `len(sys.argv) != 3` is
exactly `args` not being a two-element list. -/
def main (bonsaiImportOk : Bool) (hostModel : IfcFile)
    (loadModel : String → IfcFile) (argv0 : String) (args : List String) :
    List MainEvent :=
  if bonsaiImportOk then
    runGeneration hostModel
  else
    match args with
    | [inp, outp] =>
        MainEvent.openedModel inp ::
          (match pipelineOf (loadModel inp) with
           | some _ => [MainEvent.generated, MainEvent.wroteModel outp]
           | none => [MainEvent.crashed])
    | _ =>
        [MainEvent.printed ("Usage: " ++ argv0 ++ " input.ifc output.ifc"),
         MainEvent.exited 1]

/-! Concrete models used to instantiate the theorems. -/

/-- A space with four shape vertices, placed at (1, 1, 0). -/
def exSpace : SpaceEnt :=
  ⟨[⟨0, 0, 0⟩, ⟨2, 0, 0⟩, ⟨2, 2, 0⟩, ⟨0, 2, 0⟩], 1, 1, 0⟩

/-- A decomposed ground storey holding `exSpace`. -/
def exStoreyDec : Storey :=
  ⟨"B1-S0", 0, [[exSpace]]⟩

/-- Building "B1": two contributing elements, one excluded element with
x = 0, and two storeys listed upper-first. -/
def exB1 : Building :=
  ⟨"B1", [⟨"B1-S2", 3, []⟩, exStoreyDec],
   [⟨1, 1, 0⟩, ⟨3, 3, 3⟩, ⟨0, 5, 9⟩]⟩

/-- Building "B2": two contributing elements and one undecomposed storey. -/
def exB2 : Building :=
  ⟨"B2", [⟨"B2-S0", 0, []⟩], [⟨5, 5, 0⟩, ⟨7, 7, 4⟩]⟩

/-- A two-building model, listed out of natural order. -/
def exTwoFile : IfcFile :=
  ⟨[exB2, exB1]⟩

/-- A one-building model whose two storeys share elevation 0. -/
def exDupB : Building :=
  ⟨"Alpha", [⟨"S1", 0, []⟩, ⟨"S2", 0, []⟩], [⟨1, 2, 0⟩, ⟨4, 5, 6⟩]⟩

/-- The one-building, duplicate-elevation model. -/
def exDupFile : IfcFile :=
  ⟨[exDupB]⟩

/-- The empty model: no buildings, hence no contributing placements. -/
def exEmptyFile : IfcFile :=
  ⟨[]⟩

/-- Placeholder generator used only as an `Option.getD` default. -/
def junkGen : Generator :=
  ⟨⟨[]⟩, 100, "A2", [], ⟨0, 0, 0⟩, ⟨0, 0, 0⟩, ⟨0, 0, 0⟩, 0, 0, 0⟩

/-- Placeholder sheet output used only as an `Option.getD` default. -/
def junkOut : SheetOut :=
  ⟨⟨⟨none, none, none, none, none, none, none⟩, "", ""⟩, [], [], none⟩

/-- Placeholder drawing record used only as an `Option.getD` default. -/
def junkDrw : DrawingRec :=
  ⟨"", "", ⟨0, 0, 0⟩, 0, [], ⟨none, none, none, none, none, none, none⟩, "", ""⟩

/-- The generator built from the two-building model. -/
def exTwoGen : Generator :=
  (mkGenerator exTwoFile 100 "A2").getD junkGen

/-- The sheet outputs of the two-building model. -/
def exTwoOuts : List SheetOut :=
  (pipelineOf exTwoFile).getD []

/-- The output generated for building "B1" (first in natural order). -/
def exTwoOut1 : SheetOut :=
  (processBuilding exTwoGen 1 exB1).getD junkOut

/-- The bounding box computed for building "B1" alone. -/
def exB1bb : Point × Point × Point :=
  (get_bbox [exB1]).getD (⟨0, 0, 0⟩, ⟨0, 0, 0⟩, ⟨0, 0, 0⟩)

/-- The first plan drawing of building "B1"'s sheet. -/
def exTwoOut1Plan0 : DrawingRec × List LabelRec :=
  (exTwoOut1.plans.get? 0).getD (junkDrw, [])

/-- The generator built from the duplicate-elevation model. -/
def exDupGen : Generator :=
  (mkGenerator exDupFile 100 "A2").getD junkGen

/-- The output generated for building "Alpha". -/
def exDupOut : SheetOut :=
  (processBuilding exDupGen 1 exDupB).getD junkOut

/-- The bounding box computed for building "Alpha" alone. -/
def exDupBb : Point × Point × Point :=
  (get_bbox [exDupB]).getD (⟨0, 0, 0⟩, ⟨0, 0, 0⟩, ⟨0, 0, 0⟩)

/-- A file system on which every path holds the two-building model. -/
def exLoad : String → IfcFile :=
  fun _ => exTwoFile

/-- A file system on which every path holds the empty model. -/
def exLoadEmpty : String → IfcFile :=
  fun _ => exEmptyFile

/-! Helper lemmas about the bounding-box fold. -/

/-- Folding the guarded loop body equals folding the unguarded body over the
contributing points only. -/
theorem foldl_bboxFold_filter (l : List Point) (st : Option Point × Option Point) :
    l.foldl bboxFold st = (l.filter contribP).foldl bboxFoldAll st := by
  induction l generalizing st with
  | nil => rfl
  | cons p rest ih =>
      by_cases h : p.x = 0 ∨ p.y = 0
      · simp [bboxFold, contribP, h, ih]
      · simp [bboxFold, contribP, h, ih]

/-- Once both ends of the bounding box are initialised they stay
initialised. -/
theorem foldAll_some_some (l : List Point) (mn mx : Point) :
    ∃ mn2 mx2, l.foldl bboxFoldAll (some mn, some mx) = (some mn2, some mx2) := by
  induction l generalizing mn mx with
  | nil => exact ⟨mn, mx, rfl⟩
  | cons p rest ih => exact ih _ _

/-- The bounding-box fold yields a fully initialised pair exactly when at
least two points are folded. -/
theorem foldAll_state (l : List Point) :
    (match l.foldl bboxFoldAll ((none : Option Point), (none : Option Point)) with
     | (some _, some _) => True
     | _ => False) ↔ 2 ≤ l.length := by
  match l with
  | [] => simp [List.foldl]
  | [p] => simp [List.foldl, bboxFoldAll]
  | p :: q :: rest =>
      have h2 : (p :: q :: rest).foldl bboxFoldAll (none, none) =
          rest.foldl bboxFoldAll (some p, some q) := rfl
      rw [h2]
      obtain ⟨mn2, mx2, hw⟩ := foldAll_some_some rest p q
      rw [hw]
      simp

/-! Helper lemmas about the drawing loops. -/

/-- The plan loop advances the drawing id by one per entry. -/
theorem plansLoop_fst (bb : Point × Point × Point) (scale : ℚ)
    (entries : List (ℚ × Storey)) (i0 : Nat) :
    (plansLoop bb scale entries i0).1 = i0 + entries.length := by
  induction entries generalizing i0 with
  | nil => simp [plansLoop]
  | cons kv rest ih =>
      show (plansLoop bb scale rest (i0 + 1)).1 = _
      rw [ih]
      simp only [List.length_cons]
      omega

/-- The plan loop creates one drawing per entry. -/
theorem plansLoop_length (bb : Point × Point × Point) (scale : ℚ)
    (entries : List (ℚ × Storey)) (i0 : Nat) :
    (plansLoop bb scale entries i0).2.length = entries.length := by
  induction entries generalizing i0 with
  | nil => rfl
  | cons kv rest ih =>
      have hcons : (plansLoop bb scale (kv :: rest) i0).2 =
          ((create_plan_drawing kv.2 bb scale i0).2,
           create_space_labels kv.2 kv.1) ::
           (plansLoop bb scale rest (i0 + 1)).2 := rfl
      rw [hcons]
      simp [ih]

/-- The j-th plan of the loop is the plan drawing of the j-th entry, with
drawing id `i0 + j`, paired with that entry's space labels. -/
theorem plansLoop_get? (bb : Point × Point × Point) (scale : ℚ)
    (entries : List (ℚ × Storey)) (i0 j : Nat) :
    (plansLoop bb scale entries i0).2.get? j =
      (entries.get? j).map (fun kv =>
        ((create_plan_drawing kv.2 bb scale (i0 + j)).2,
         create_space_labels kv.2 kv.1)) := by
  induction entries generalizing i0 j with
  | nil => simp [plansLoop]
  | cons kv rest ih =>
      have hcons : (plansLoop bb scale (kv :: rest) i0).2 =
          ((create_plan_drawing kv.2 bb scale i0).2,
           create_space_labels kv.2 kv.1) ::
           (plansLoop bb scale rest (i0 + 1)).2 := rfl
      rw [hcons]
      cases j with
      | zero => simp
      | succ j =>
          simp only [List.get?_cons_succ]
          rw [ih]
          have harith : i0 + 1 + j = i0 + (j + 1) := by omega
          rw [harith]

/-- The elevation loop over the four compass directions, unfolded. -/
theorem elevLoop4 (g : Generator) (b : Building) (bb : Point × Point × Point)
    (i0 : Nat) :
    elevLoop g b bb ["NORTH", "SOUTH", "WEST", "EAST"] i0 =
      (i0 + 1 + 1 + 1 + 1,
       [(create_elevation_drawing g b bb "NORTH" i0).2,
        (create_elevation_drawing g b bb "SOUTH" (i0 + 1)).2,
        (create_elevation_drawing g b bb "WEST" (i0 + 1 + 1)).2,
        (create_elevation_drawing g b bb "EAST" (i0 + 1 + 1 + 1)).2]) := rfl

/-- The body of `processBuilding` once the building bounding box is known. -/
theorem processBuilding_eq (g : Generator) (sheetId : Nat) (b : Building)
    (bb : Point × Point × Point) (hbb : get_bbox [b] = some bb) :
    processBuilding g sheetId b = some
      { sheet := create_sheet_info g.titleblock
          ("A" ++ zfill 3 (toString sheetId)) b.name,
        plans := (plansLoop bb g.scale (planEntries b) 0).2,
        elevations := (elevLoop g b bb ["NORTH", "SOUTH", "WEST", "EAST"]
          (plansLoop bb g.scale (planEntries b) 0).1).2,
        locationPlan :=
          if 1 < g.buildings.length then
            some (create_location_plan g b
              (elevLoop g b bb ["NORTH", "SOUTH", "WEST", "EAST"]
                (plansLoop bb g.scale (planEntries b) 0).1).1).2
          else none } := by
  unfold processBuilding
  rw [hbb]

/-- A successful `processBuilding` presupposes a successful building
bounding box. -/
theorem processBuilding_bbox (g : Generator) (sheetId : Nat) (b : Building)
    (out : SheetOut) (h : processBuilding g sheetId b = some out) :
    ∃ bb, get_bbox [b] = some bb := by
  unfold processBuilding at h
  cases hbb : get_bbox [b] with
  | none => rw [hbb] at h; cases h
  | some bb => exact ⟨bb, rfl⟩

/-- The sheet of a successful `processBuilding`. -/
theorem processBuilding_sheet (g : Generator) (sheetId : Nat) (b : Building)
    (out : SheetOut) (h : processBuilding g sheetId b = some out) :
    out.sheet = create_sheet_info g.titleblock
      ("A" ++ zfill 3 (toString sheetId)) b.name := by
  obtain ⟨bb, hbb⟩ := processBuilding_bbox g sheetId b out h
  rw [processBuilding_eq g sheetId b bb hbb] at h
  cases h
  rfl

/-- Collecting options succeeds exactly on a list of successes. -/
theorem optList_eq_some (l : List (Option α)) (out : List α)
    (h : optList l = some out) : l = out.map some := by
  induction l generalizing out with
  | nil =>
      cases h
      rfl
  | cons a rest ih =>
      cases a with
      | none => cases h
      | some v =>
          simp only [optList, Option.map_eq_some'] at h
          obtain ⟨t, ht, hout⟩ := h
          rw [← hout]
          simp [ih t ht]

/-! Helper lemmas about the storey dictionary. -/

/-- Folding the last-match step from an arbitrary seed. -/
theorem lastWith_foldl (l : List Storey) (k : ℚ) (a : Option Storey) :
    l.foldl (fun acc st => if st.elevation = k then some st else acc) a =
      (lastWith l k).or a := by
  induction l generalizing a with
  | nil => simp [lastWith]
  | cons st l ih =>
      have hl : lastWith (st :: l) k =
          (lastWith l k).or (if st.elevation = k then some st else none) := by
        show l.foldl _ (if st.elevation = k then some st else none) = _
        rw [ih]
      show l.foldl _ (if st.elevation = k then some st else a) = _
      rw [ih, hl]
      cases hlw : lastWith l k with
      | some s => rfl
      | none =>
          by_cases hc : st.elevation = k
          · rw [if_pos hc, if_pos hc]
            rfl
          · rw [if_neg hc, if_neg hc]
            rfl

/-- A last-encountered storey at elevation k has elevation k. -/
theorem lastWith_elev (l : List Storey) (k : ℚ) (s : Storey)
    (h : lastWith l k = some s) : s.elevation = k := by
  induction l with
  | nil => cases h
  | cons st l ih =>
      have hshape : lastWith (st :: l) k =
          (lastWith l k).or (if st.elevation = k then some st else none) :=
        lastWith_foldl l k _
      rw [hshape] at h
      cases hlw : lastWith l k with
      | some s2 =>
          rw [hlw] at h
          have : s2 = s := Option.some.inj h
          exact ih (this ▸ hlw)
      | none =>
          rw [hlw] at h
          by_cases hc : st.elevation = k
          · rw [if_pos hc] at h
            have : st = s := Option.some.inj h
            rw [← this]
            exact hc
          · rw [if_neg hc] at h
            cases h

/-- Replacing the value at key `k` does not change lookups of other keys. -/
theorem dictLookup_map_ne (d : List (ℚ × Storey)) (k k2 : ℚ) (v : Storey)
    (hne : k2 ≠ k) :
    dictLookup (d.map (fun p => if p.1 = k then (k, v) else p)) k2 =
      dictLookup d k2 := by
  induction d with
  | nil => rfl
  | cons p rest ih =>
      simp only [List.map_cons, dictLookup]
      by_cases hp : p.1 = k
      · rw [if_pos hp]
        simp only [dictLookup]
        have h1 : ¬(((k, v) : ℚ × Storey).1 = k2) := fun h => hne h.symm
        have h2 : ¬(p.1 = k2) := by rw [hp]; exact fun h => hne h.symm
        rw [if_neg h1, if_neg h2]
        exact ih
      · rw [if_neg hp]
        by_cases hp2 : p.1 = k2
        · rw [if_pos hp2, if_pos hp2]
        · rw [if_neg hp2, if_neg hp2]
          exact ih

/-- Looking up key `k` after replacing its value finds the new value exactly
when the key was present. -/
theorem dictLookup_map_eq (d : List (ℚ × Storey)) (k : ℚ) (v : Storey) :
    dictLookup (d.map (fun p => if p.1 = k then (k, v) else p)) k =
      if d.any (fun p => p.1 = k) then some v else none := by
  induction d with
  | nil => rfl
  | cons p rest ih =>
      simp only [List.map_cons, List.any_cons]
      by_cases hp : p.1 = k
      · rw [if_pos hp]
        simp [dictLookup, hp]
      · rw [if_neg hp]
        simp only [dictLookup]
        rw [if_neg hp, ih]
        simp only [decide_eq_false hp, Bool.false_or]

/-- A key absent from every pair looks up to nothing. -/
theorem dictLookup_none_of_not_any (d : List (ℚ × Storey)) (k : ℚ)
    (hany : d.any (fun p => p.1 = k) = false) :
    dictLookup d k = none := by
  induction d with
  | nil => rfl
  | cons p rest ih =>
      simp only [List.any_cons, Bool.or_eq_false_iff] at hany
      simp only [dictLookup]
      rw [if_neg (by simpa using hany.1)]
      exact ih hany.2

/-- Lookup after appending a single fresh pair. -/
theorem dictLookup_append_single (d : List (ℚ × Storey)) (k : ℚ) (v : Storey)
    (k2 : ℚ) :
    dictLookup (d ++ [(k, v)]) k2 =
      (dictLookup d k2).or (if k2 = k then some v else none) := by
  induction d with
  | nil =>
      simp only [List.nil_append, dictLookup, Option.none_or]
      by_cases hk : k2 = k
      · simp [hk]
      · rw [if_neg (show ¬(((k, v) : ℚ × Storey).1 = k2) from fun h => hk h.symm),
            if_neg hk]
  | cons p rest ih =>
      simp only [List.cons_append, dictLookup]
      by_cases hp : p.1 = k2
      · rw [if_pos hp, if_pos hp]
        rfl
      · rw [if_neg hp, if_neg hp]
        exact ih

/-- Python dict assignment then lookup. -/
theorem dictLookup_insert (d : List (ℚ × Storey)) (k : ℚ) (v : Storey) (k2 : ℚ) :
    dictLookup (dictInsert k v d) k2 =
      if k2 = k then some v else dictLookup d k2 := by
  unfold dictInsert
  by_cases hany : d.any (fun p => p.1 = k)
  · rw [if_pos hany]
    by_cases hk : k2 = k
    · subst hk
      rw [if_pos rfl, dictLookup_map_eq, if_pos hany]
    · rw [if_neg hk, dictLookup_map_ne d k k2 v hk]
  · rw [if_neg hany, dictLookup_append_single]
    by_cases hk : k2 = k
    · subst hk
      rw [dictLookup_none_of_not_any d k2 (Bool.eq_false_iff.mpr hany), if_pos rfl]
      rfl
    · rw [if_neg hk, if_neg hk, Option.or_none]

/-- Lookup through the whole dictionary build: the dictionary holds the last
storey written at each elevation. -/
theorem dictLookup_buildDict_aux (l : List Storey) (acc : List (ℚ × Storey))
    (k : ℚ) :
    dictLookup (l.foldl (fun d st => dictInsert st.elevation st d) acc) k =
      (lastWith l k).or (dictLookup acc k) := by
  induction l generalizing acc with
  | nil => simp [lastWith, Option.or]
  | cons st l ih =>
      have hl : lastWith (st :: l) k =
          (lastWith l k).or (if st.elevation = k then some st else none) :=
        lastWith_foldl l k _
      show dictLookup (l.foldl _ (dictInsert st.elevation st acc)) k = _
      rw [ih, hl, dictLookup_insert, Option.or_assoc]
      by_cases hc : st.elevation = k
      · simp [hc, Option.or]
      · have hc2 : ¬(k = st.elevation) := fun h => hc h.symm
        simp [hc, hc2, Option.or]

/-- The storey dictionary maps each elevation to the last storey
encountered at it. -/
theorem dictLookup_buildDict (l : List Storey) (k : ℚ) :
    dictLookup (buildDict l) k = lastWith l k := by
  unfold buildDict
  rw [dictLookup_buildDict_aux]
  simp [dictLookup, Option.or_none]

/-- Dict assignment keeps the key list when the key exists and appends it
otherwise. -/
theorem map_fst_dictInsert (d : List (ℚ × Storey)) (k : ℚ) (v : Storey) :
    (dictInsert k v d).map Prod.fst =
      if d.any (fun p => p.1 = k) then d.map Prod.fst
      else d.map Prod.fst ++ [k] := by
  unfold dictInsert
  by_cases hany : d.any (fun p => p.1 = k)
  · rw [if_pos hany, if_pos hany, List.map_map]
    refine List.map_congr_left (fun p _ => ?_)
    by_cases hp : p.1 = k
    · simp [hp]
    · simp [hp]
  · rw [if_neg hany, if_neg hany]
    simp

/-- The keys of the storey dictionary are distinct. -/
theorem buildDict_keys_nodup_aux (l : List Storey) (acc : List (ℚ × Storey))
    (hacc : (acc.map Prod.fst).Nodup) :
    ((l.foldl (fun d st => dictInsert st.elevation st d) acc).map Prod.fst).Nodup := by
  induction l generalizing acc with
  | nil => exact hacc
  | cons st l ih =>
      refine ih (dictInsert st.elevation st acc) ?_
      rw [map_fst_dictInsert]
      by_cases hany : acc.any (fun p => p.1 = st.elevation)
      · rw [if_pos hany]; exact hacc
      · rw [if_neg hany]
        rw [List.nodup_append]
        refine ⟨hacc, List.nodup_singleton _, ?_⟩
        intro a ha hb
        simp only [List.mem_singleton] at hb
        subst hb
        obtain ⟨p, hp, hpa⟩ := List.mem_map.mp ha
        exact hany (List.any_eq_true.mpr ⟨p, hp, by simp [hpa]⟩)

/-- The keys of the storey dictionary are distinct. -/
theorem buildDict_keys_nodup (l : List Storey) :
    ((buildDict l).map Prod.fst).Nodup :=
  buildDict_keys_nodup_aux l [] (by simp)

/-- A lookup in a dictionary with distinct keys finds any member pair. -/
theorem mem_dict_lookup (d : List (ℚ × Storey)) (kv : ℚ × Storey)
    (hnd : (d.map Prod.fst).Nodup) (hmem : kv ∈ d) :
    dictLookup d kv.1 = some kv.2 := by
  induction d with
  | nil => cases hmem
  | cons p rest ih =>
      rcases List.mem_cons.mp hmem with heq | hrest
      · subst heq
        simp [dictLookup]
      · by_cases hp : p.1 = kv.1
        · exfalso
          simp only [List.map_cons, List.nodup_cons] at hnd
          exact hnd.1 (hp ▸ List.mem_map.mpr ⟨kv, hrest, rfl⟩)
        · simp only [dictLookup]
          rw [if_neg hp]
          simp only [List.map_cons, List.nodup_cons] at hnd
          exact ih hnd.2 hrest

/-- The plan entries are a permutation of the dictionary entries. -/
theorem planEntries_perm (b : Building) :
    (planEntries b).Perm (buildDict b.storeys) :=
  List.perm_insertionSort keyRel (buildDict b.storeys)

/-- The elevations of the plan entries are distinct. -/
theorem planEntries_keys_nodup (b : Building) :
    ((planEntries b).map Prod.fst).Nodup :=
  (((planEntries_perm b).map Prod.fst).nodup_iff).mpr
    (buildDict_keys_nodup b.storeys)

/-- The elevations of the plan entries are in ascending order. -/
theorem planEntries_sorted (b : Building) :
    List.Sorted (fun a c : ℚ => a ≤ c) ((planEntries b).map Prod.fst) :=
  List.Pairwise.map Prod.fst (fun _ _ h => h)
    (List.sorted_insertionSort keyRel (buildDict b.storeys))

/-- Each plan entry holds the last storey encountered at its elevation. -/
theorem planEntries_last (b : Building) (kv : ℚ × Storey)
    (hkv : kv ∈ planEntries b) :
    lastWith b.storeys kv.1 = some kv.2 := by
  have hmem : kv ∈ buildDict b.storeys := (planEntries_perm b).mem_iff.mp hkv
  have := mem_dict_lookup (buildDict b.storeys) kv
    (buildDict_keys_nodup b.storeys) hmem
  rw [dictLookup_buildDict] at this
  exact this

/-! Helper lemmas about generator construction and the building loop. -/

/-- The fields a successful `mkGenerator` puts into the generator. -/
theorem mkGenerator_fields (f : IfcFile) (scale : ℚ) (tb : String)
    (g : Generator) (h : mkGenerator f scale tb = some g) :
    g.file = f ∧ g.scale = scale ∧ g.titleblock = tb ∧
      g.buildings = natsortBuildings f.buildings := by
  simp only [mkGenerator] at h
  cases hbb : get_bbox (natsortBuildings f.buildings) with
  | none => rw [hbb] at h; cases h
  | some bb =>
      obtain ⟨mn, mid, mx⟩ := bb
      rw [hbb] at h
      cases h
      exact ⟨rfl, rfl, rfl, rfl⟩

/-- get_bbox succeeds exactly when at least two placements contribute. -/
theorem get_bbox_isSome_iff (bs : List Building) :
    (get_bbox bs).isSome ↔ 2 ≤ (contribPoints bs).length := by
  unfold get_bbox
  rw [foldl_bboxFold_filter]
  have h := foldAll_state ((elementPoints bs).filter contribP)
  cases hst : ((elementPoints bs).filter contribP).foldl bboxFoldAll (none, none) with
  | mk o1 o2 =>
      rw [hst] at h
      cases o1 with
      | none =>
          cases o2 with
          | none => simpa using h
          | some mx => simpa using h
      | some mn =>
          cases o2 with
          | none => simpa using h
          | some mx => simpa using h

/-- A failed contribution count makes `mkGenerator` fail. -/
theorem mkGenerator_none (f : IfcFile) (scale : ℚ) (tb : String)
    (hlt : (contribPoints (natsortBuildings f.buildings)).length < 2) :
    mkGenerator f scale tb = none := by
  have hbb : get_bbox (natsortBuildings f.buildings) = none := by
    cases hb : get_bbox (natsortBuildings f.buildings) with
    | none => rfl
    | some bb =>
        exfalso
        have : (get_bbox (natsortBuildings f.buildings)).isSome := by
          rw [hb]; rfl
        rw [get_bbox_isSome_iff] at this
        omega
  simp only [mkGenerator]
  rw [hbb]

/-- What a successful `generate_drawings` says about each building. -/
theorem generate_get (g : Generator) (outs : List SheetOut)
    (h : generate_drawings g = some outs) :
    outs.length = g.buildings.length ∧
      ∀ i bi oi, g.buildings.get? i = some bi → outs.get? i = some oi →
        processBuilding g (i + 1) bi = some oi := by
  have heq := optList_eq_some _ _ h
  constructor
  · have hlen := congrArg List.length heq
    simp only [List.length_map, List.enum_length] at hlen
    exact hlen.symm
  · intro i bi oi hbi hoi
    have h1 := congrArg (fun l => l.get? i) heq
    simp only [List.get?_map, List.get?_enum, hbi, hoi, Option.map_some'] at h1
    exact Option.some.inj h1

/-! Helper lemmas evaluating the property sets. -/

/-- The EPset_Drawing lookups of a plan drawing. -/
theorem planPset_eval (scale : ℚ) :
    psetLookup (editPset (create_drawing_pset scale)
        [("TargetView", PVal.s "PLAN_VIEW")]) "Scale" =
      some (PVal.s ("1/" ++ toString (pyInt scale))) ∧
    psetLookup (editPset (create_drawing_pset scale)
        [("TargetView", PVal.s "PLAN_VIEW")]) "HumanScale" =
      some (PVal.s ("1:" ++ toString (pyInt scale))) ∧
    psetLookup (editPset (create_drawing_pset scale)
        [("TargetView", PVal.s "PLAN_VIEW")]) "TargetView" =
      some (PVal.s "PLAN_VIEW") := by
  refine ⟨?_, ?_, ?_⟩ <;>
    simp [create_drawing_pset, editPset, upsert, psetLookup,
      List.foldl_cons, List.foldl_nil, List.find?_cons]

/-- The EPset_Drawing lookups of an elevation drawing. -/
theorem elevPset_eval (scale : ℚ) (nm : String) :
    psetLookup (set_elevation_properties (create_drawing_pset scale) nm) "Scale" =
      some (PVal.s ("1/" ++ toString (pyInt scale))) ∧
    psetLookup (set_elevation_properties (create_drawing_pset scale) nm) "HumanScale" =
      some (PVal.s ("1:" ++ toString (pyInt scale))) ∧
    psetLookup (set_elevation_properties (create_drawing_pset scale) nm) "TargetView" =
      some (PVal.s "ELEVATION_VIEW") ∧
    psetLookup (set_elevation_properties (create_drawing_pset scale) nm) "Include" =
      some (PVal.s ("IfcTypeProduct, IfcProduct, location=\"" ++ nm ++ "\"")) := by
  refine ⟨?_, ?_, ?_, ?_⟩ <;>
    simp [create_drawing_pset, set_elevation_properties, editPset, upsert,
      psetLookup, List.foldl_cons, List.foldl_nil, List.find?_cons]

/-- The EPset_Drawing lookups of a location plan. -/
theorem locPset_eval (scale : ℚ) (nm : String) :
    psetLookup (editPset (create_drawing_pset scale)
        [("TargetView", PVal.s "PLAN_VIEW"),
         ("Include", PVal.s ("IfcSite + IfcRoof, IfcWall, IfcSlab, location=\"" ++ nm ++ "\""))])
        "Scale" =
      some (PVal.s ("1/" ++ toString (pyInt scale))) ∧
    psetLookup (editPset (create_drawing_pset scale)
        [("TargetView", PVal.s "PLAN_VIEW"),
         ("Include", PVal.s ("IfcSite + IfcRoof, IfcWall, IfcSlab, location=\"" ++ nm ++ "\""))])
        "HumanScale" =
      some (PVal.s ("1:" ++ toString (pyInt scale))) ∧
    psetLookup (editPset (create_drawing_pset scale)
        [("TargetView", PVal.s "PLAN_VIEW"),
         ("Include", PVal.s ("IfcSite + IfcRoof, IfcWall, IfcSlab, location=\"" ++ nm ++ "\""))])
        "TargetView" =
      some (PVal.s "PLAN_VIEW") := by
  refine ⟨?_, ?_, ?_⟩ <;>
    simp [create_drawing_pset, editPset, upsert, psetLookup,
      List.foldl_cons, List.foldl_nil, List.find?_cons]

/-- The property set a plan drawing record carries. -/
theorem planProps_proj (st : Storey) (bb : Point × Point × Point)
    (scale : ℚ) (i : Nat) :
    (create_plan_drawing st bb scale i).2.props =
      editPset (create_drawing_pset scale) [("TargetView", PVal.s "PLAN_VIEW")] := by
  simp only [create_plan_drawing]

/-- The property set an elevation drawing record carries. -/
theorem elevProps_proj (g : Generator) (b : Building)
    (bb : Point × Point × Point) (d : String) (i : Nat) :
    (create_elevation_drawing g b bb d i).2.props =
      set_elevation_properties (create_drawing_pset g.scale) b.name := by
  simp only [create_elevation_drawing]

/-- The property set a location plan record carries. -/
theorem locProps_proj (g : Generator) (b : Building) (i : Nat) :
    (create_location_plan g b i).2.props =
      editPset (create_drawing_pset (g.scale * 10))
        [("TargetView", PVal.s "PLAN_VIEW"),
         ("Include", PVal.s ("IfcSite + IfcRoof, IfcWall, IfcSlab, location=\"" ++ b.name ++ "\""))] := by
  simp only [create_location_plan]

/-- The component lists of a successful `processBuilding`. -/
theorem processBuilding_fields (g : Generator) (sid : Nat) (b : Building)
    (out : SheetOut) (bb : Point × Point × Point)
    (h : processBuilding g sid b = some out) (hbb : get_bbox [b] = some bb) :
    out.plans = (plansLoop bb g.scale (planEntries b) 0).2 ∧
    out.elevations = (elevLoop g b bb ["NORTH", "SOUTH", "WEST", "EAST"]
        (plansLoop bb g.scale (planEntries b) 0).1).2 ∧
    out.locationPlan =
      (if 1 < g.buildings.length then
        some (create_location_plan g b
          (elevLoop g b bb ["NORTH", "SOUTH", "WEST", "EAST"]
            (plansLoop bb g.scale (planEntries b) 0).1).1).2
      else none) := by
  rw [processBuilding_eq g sid b bb hbb] at h
  cases h
  exact ⟨rfl, rfl, rfl⟩

/-- The j-th plan of a successful `processBuilding` belongs to the j-th plan
entry, carries drawing id j, and holds that entry's space labels. -/
theorem processBuilding_plan_get (g : Generator) (sid : Nat) (b : Building)
    (out : SheetOut) (bb : Point × Point × Point)
    (h : processBuilding g sid b = some out) (hbb : get_bbox [b] = some bb)
    (j : Nat) (kv : ℚ × Storey) (hkv : (planEntries b).get? j = some kv) :
    out.plans.get? j = some
      ((create_plan_drawing kv.2 bb g.scale j).2,
       create_space_labels kv.2 kv.1) := by
  obtain ⟨hp, _, _⟩ := processBuilding_fields g sid b out bb h hbb
  rw [hp, plansLoop_get?, hkv]
  simp only [Option.map_some']
  rw [Nat.zero_add]

/-! Claim theorems. -/

/-- C1 (amended): in standalone mode, an argv of the wrong length gets the
usage message and exit status 1 with no model opened, generated or written;
with exactly input and output paths, main opens the input, runs drawing
generation and, when generation succeeds, writes the model to the output
path. -/
theorem claim_C1 (host : IfcFile) (load : String → IfcFile) (a0 : String)
    (args : List String) :
    (args.length ≠ 2 →
      main false host load a0 args =
        [MainEvent.printed ("Usage: " ++ a0 ++ " input.ifc output.ifc"),
         MainEvent.exited 1] ∧
      (∀ p, MainEvent.openedModel p ∉ main false host load a0 args) ∧
      (∀ p, MainEvent.wroteModel p ∉ main false host load a0 args) ∧
      MainEvent.generated ∉ main false host load a0 args) ∧
    (∀ inp outp outs, pipelineOf (load inp) = some outs →
      main false host load a0 [inp, outp] =
        [MainEvent.openedModel inp, MainEvent.generated,
         MainEvent.wroteModel outp]) := by
  constructor
  · intro hlen
    have husage : main false host load a0 args =
        [MainEvent.printed ("Usage: " ++ a0 ++ " input.ifc output.ifc"),
         MainEvent.exited 1] := by
      match args with
      | [] => rfl
      | [a] => rfl
      | [a, b] => exact absurd rfl hlen
      | a :: b :: c :: rest => rfl
    refine ⟨husage, ?_, ?_, ?_⟩ <;> rw [husage] <;> simp
  · intro inp outp outs hp
    have hstep : main false host load a0 [inp, outp] =
        MainEvent.openedModel inp ::
          (match pipelineOf (load inp) with
           | some _ => [MainEvent.generated, MainEvent.wroteModel outp]
           | none => [MainEvent.crashed]) := rfl
    rw [hstep, hp]

/-- C1 witness: a no-argument invocation gets the usage message, and a
two-argument invocation on a good model opens, generates and writes. -/
theorem claim_C1_witness :
    main false exEmptyFile exLoad "prog" [] =
      [MainEvent.printed ("Usage: " ++ "prog" ++ " input.ifc output.ifc"),
       MainEvent.exited 1] ∧
    main false exEmptyFile exLoad "prog" ["in.ifc", "out.ifc"] =
      [MainEvent.openedModel "in.ifc", MainEvent.generated,
       MainEvent.wroteModel "out.ifc"] :=
  ⟨((claim_C1 exEmptyFile exLoad "prog" []).1 (by decide)).1,
   (claim_C1 exEmptyFile exLoad "prog" ["in.ifc", "out.ifc"]).2
     "in.ifc" "out.ifc" exTwoOuts rfl⟩

/-- C1 counterexample: on a model with no contributing placements, a
two-argument invocation opens the input and crashes, and the output file is
never written — refuting the unconditional "writes the resulting model to
the second path". -/
theorem claim_C1_cex :
    main false exEmptyFile exLoadEmpty "prog" ["in.ifc", "out.ifc"] =
      [MainEvent.openedModel "in.ifc", MainEvent.crashed] ∧
    MainEvent.wroteModel "out.ifc" ∉
      main false exEmptyFile exLoadEmpty "prog" ["in.ifc", "out.ifc"] :=
  ⟨by decide, by decide⟩

/-- C2: when the bonsai.tool import succeeds, main runs generation on the
host's in-memory model; the trace does not depend on the command line or on
the file system, and it never opens a path, writes a file, prints, or
exits. -/
theorem claim_C2 (host : IfcFile) (load load2 : String → IfcFile)
    (a0 a02 : String) (args args2 : List String) :
    main true host load a0 args = runGeneration host ∧
    main true host load a0 args = main true host load2 a02 args2 ∧
    (∀ p, MainEvent.openedModel p ∉ main true host load a0 args) ∧
    (∀ p, MainEvent.wroteModel p ∉ main true host load a0 args) ∧
    (∀ m, MainEvent.printed m ∉ main true host load a0 args) ∧
    (∀ c, MainEvent.exited c ∉ main true host load a0 args) := by
  have h1 : main true host load a0 args = runGeneration host := rfl
  refine ⟨h1, rfl, ?_, ?_, ?_, ?_⟩ <;>
    · intro x
      rw [h1]
      unfold runGeneration
      cases hp : pipelineOf host <;> simp

/-- C2 witness: a hosted run on the two-building model is exactly the
generation on the host model and never exits. -/
theorem claim_C2_witness :
    main true exTwoFile exLoadEmpty "prog" ["x"] = runGeneration exTwoFile ∧
    MainEvent.exited 1 ∉ main true exTwoFile exLoadEmpty "prog" ["x"] :=
  ⟨(claim_C2 exTwoFile exLoadEmpty exLoad "prog" "q" ["x"] ["y"]).1,
   (claim_C2 exTwoFile exLoadEmpty exLoad "prog" "q" ["x"] ["y"]).2.2.2.2.2 1⟩

/-- C7: every element placement with x or y translation exactly 0 is
excluded from the bounding box entirely (its z is ignored too), and the
remaining placements are each folded into the box: get_bbox equals the
unguarded fold over exactly the contributing placements. -/
theorem claim_C7 (bs : List Building) :
    get_bbox bs = get_bbox_contribOnly bs := by
  unfold get_bbox get_bbox_contribOnly contribPoints
  rw [foldl_bboxFold_filter]

/-- C9: get_bbox returns a (min, mid, max) triple exactly when at least two
placements contribute; with fewer, the midpoint indexing fails, so
DrawingGenerator cannot be constructed for a model whose buildings yield
fewer than two contributing placements. -/
theorem claim_C9 (bs : List Building) (f : IfcFile) (scale : ℚ) (tb : String) :
    ((get_bbox bs).isSome ↔ 2 ≤ (contribPoints bs).length) ∧
    ((contribPoints (natsortBuildings f.buildings)).length < 2 →
      mkGenerator f scale tb = none) :=
  ⟨get_bbox_isSome_iff bs, fun hlt => mkGenerator_none f scale tb hlt⟩

/-- C9 witness: the empty model has no contributing placements and its
generator cannot be constructed. -/
theorem claim_C9_witness :
    (contribPoints (natsortBuildings exEmptyFile.buildings)).length < 2 ∧
    mkGenerator exEmptyFile 100 "A2" = none :=
  ⟨by decide,
   (claim_C9 [] exEmptyFile 100 "A2").2 (by decide)⟩

/-- C3 (amended): generate_drawings handles every IfcBuilding exactly once,
in natural-sorted order of building name, creating for each building exactly
one sheet document whose identification is "A" plus the building's 1-based
position zero-padded to three digits, whose Name is the building name,
whose Description is "General Arrangement" and whose Scope is "SHEET". -/
theorem claim_C3 (f : IfcFile) (scale : ℚ) (tb : String) (g : Generator)
    (outs : List SheetOut) (hg : mkGenerator f scale tb = some g)
    (houts : generate_drawings g = some outs) :
    g.buildings = natsortBuildings f.buildings ∧
    g.buildings.Perm f.buildings ∧
    outs.length = g.buildings.length ∧
    ∀ i bi oi, g.buildings.get? i = some bi → outs.get? i = some oi →
      oi.sheet.info =
        ⟨some ("A" ++ zfill 3 (toString (i + 1))), some bi.name,
         some "General Arrangement", none, none, none, some "SHEET"⟩ := by
  obtain ⟨hfile, hscale, htb, hbld⟩ := mkGenerator_fields f scale tb g hg
  obtain ⟨hlen, hget⟩ := generate_get g outs houts
  refine ⟨hbld, ?_, hlen, ?_⟩
  · rw [hbld]
    exact List.perm_insertionSort natRel f.buildings
  · intro i bi oi hbi hoi
    have hp := hget i bi oi hbi hoi
    have hs := processBuilding_sheet g (i + 1) bi oi hp
    rw [hs]
    rfl

/-- C3 witness: the two-building model gets sheets A001 for B1 and A002 for
B2, in natural order. -/
theorem claim_C3_witness :
    mkGenerator exTwoFile 100 "A2" = some exTwoGen ∧
    generate_drawings exTwoGen = some exTwoOuts ∧
    exTwoOut1.sheet.info =
      ⟨some ("A" ++ zfill 3 (toString (0 + 1))), some exB1.name,
       some "General Arrangement", none, none, none, some "SHEET"⟩ :=
  ⟨rfl, rfl,
   (claim_C3 exTwoFile 100 "A2" exTwoGen exTwoOuts rfl rfl).2.2.2
     0 exB1 exTwoOut1 (by decide) rfl⟩

/-- C3 counterexample: the sheet documents' Description attribute (third
createIfcDocumentInformation argument) is "General Arrangement", not
"SHEET" — "SHEET" is the Scope (seventh argument) — refuting the claim's
"description 'SHEET'". -/
theorem claim_C3_cex :
    (pipelineOf exTwoFile).map (fun outs => outs.map (fun o => o.sheet.info.description)) =
      some [some "General Arrangement", some "General Arrangement"] ∧
    (pipelineOf exTwoFile).map (fun outs => outs.map (fun o => o.sheet.info.scope)) =
      some [some "SHEET", some "SHEET"] ∧
    (some "General Arrangement" : Option String) ≠ some "SHEET" :=
  ⟨by decide, by decide, by decide⟩

/-- C4 (amended): on each building's sheet, drawing ids run consecutively
from 0: first one plan drawing per distinct storey elevation (the plan
entries), in ascending elevation order — when storeys share an elevation
only one plan results (see C10) — then the four elevations in the fixed
order NORTH, SOUTH, WEST, EAST named `<building> <direction>` with the next
four ids, then, exactly when the model has more than one building, one
location plan named `<building> LOCATION` with the next id. -/
theorem claim_C4 (g : Generator) (sid : Nat) (b : Building) (out : SheetOut)
    (bb : Point × Point × Point) (h : processBuilding g sid b = some out)
    (hbb : get_bbox [b] = some bb) :
    out.plans.map (fun p => p.1.name) =
      (planEntries b).map (fun kv => kv.2.name) ∧
    List.Sorted (fun e1 e2 : ℚ => e1 ≤ e2) ((planEntries b).map Prod.fst) ∧
    (∀ j pr, out.plans.get? j = some pr → pr.1.drawingId = j) ∧
    out.elevations.map (fun d => d.name) =
      (["NORTH", "SOUTH", "WEST", "EAST"].map (fun d => b.name ++ " " ++ d)) ∧
    out.elevations.map (fun d => d.drawingId) =
      [out.plans.length, out.plans.length + 1, out.plans.length + 2,
       out.plans.length + 3] ∧
    out.locationPlan.map (fun d => d.name) =
      (if 1 < g.buildings.length then some (b.name ++ " LOCATION") else none) ∧
    out.locationPlan.map (fun d => d.drawingId) =
      (if 1 < g.buildings.length then some (out.plans.length + 4) else none) := by
  obtain ⟨hp, he, hl⟩ := processBuilding_fields g sid b out bb h hbb
  have hstart : (plansLoop bb g.scale (planEntries b) 0).1 =
      (planEntries b).length := by
    rw [plansLoop_fst]
    omega
  have hplen : out.plans.length = (planEntries b).length := by
    rw [hp, plansLoop_length]
  refine ⟨?_, planEntries_sorted b, ?_, ?_, ?_, ?_, ?_⟩
  · apply List.ext
    intro j
    rw [List.get?_map, List.get?_map, hp, plansLoop_get?]
    cases hkv : (planEntries b).get? j with
    | none => rfl
    | some kv => rfl
  · intro j pr hpr
    rw [hp, plansLoop_get?] at hpr
    cases hkv : (planEntries b).get? j with
    | none => rw [hkv] at hpr; cases hpr
    | some kv =>
        rw [hkv] at hpr
        simp only [Option.map_some'] at hpr
        have hpr2 := Option.some.inj hpr
        rw [← hpr2]
        exact Nat.zero_add j
  · rw [he, elevLoop4]
    rfl
  · have h5 : out.elevations.map (fun d => d.drawingId) =
        [(plansLoop bb g.scale (planEntries b) 0).1,
         (plansLoop bb g.scale (planEntries b) 0).1 + 1,
         (plansLoop bb g.scale (planEntries b) 0).1 + 1 + 1,
         (plansLoop bb g.scale (planEntries b) 0).1 + 1 + 1 + 1] := by
      rw [he, elevLoop4]
      rfl
    rw [h5, hstart, ← hplen]
  · rw [hl]
    by_cases hm : 1 < g.buildings.length
    · rw [if_pos hm, if_pos hm]
      rfl
    · rw [if_neg hm, if_neg hm]
      rfl
  · have hX : (elevLoop g b bb ["NORTH", "SOUTH", "WEST", "EAST"]
        (plansLoop bb g.scale (planEntries b) 0).1).1 =
        (plansLoop bb g.scale (planEntries b) 0).1 + 1 + 1 + 1 + 1 :=
      congrArg Prod.fst (elevLoop4 g b bb _)
    rw [hl]
    by_cases hm : 1 < g.buildings.length
    · rw [if_pos hm, if_pos hm]
      simp only [Option.map_some']
      have hdid : ∀ i, (create_location_plan g b i).2.drawingId = i :=
        fun i => rfl
      rw [hdid, hX, hstart, ← hplen]
    · rw [if_neg hm, if_neg hm]
      rfl

/-- C4 witness: building B1 of the two-building model gets two plans (ids
0, 1), four elevations named `B1 <direction>` with ids 2-5, and a location
plan with id 6. -/
theorem claim_C4_witness :
    processBuilding exTwoGen 1 exB1 = some exTwoOut1 ∧
    get_bbox [exB1] = some exB1bb ∧
    exTwoOut1.elevations.map (fun d => d.name) =
      (["NORTH", "SOUTH", "WEST", "EAST"].map (fun d => exB1.name ++ " " ++ d)) ∧
    exTwoOut1.locationPlan.map (fun d => d.drawingId) =
      some (exTwoOut1.plans.length + 4) := by
  have hc := claim_C4 exTwoGen 1 exB1 exTwoOut1 exB1bb rfl rfl
  refine ⟨rfl, rfl, hc.2.2.2.1, ?_⟩
  have h7 := hc.2.2.2.2.2.2
  rw [h7]
  rfl

/-- C4 counterexample: a building with two storeys at the same elevation
gets a single plan drawing, refuting "one plan drawing per storey". -/
theorem claim_C4_cex :
    (pipelineOf exDupFile).map (fun outs => outs.map (fun o => o.plans.length)) =
      some [1] ∧
    exDupFile.buildings.map (fun bd => bd.storeys.length) = [2] :=
  ⟨by decide, by decide⟩

/-- C5 (amended): for every building processed, when the model holds more
than one building, a location plan named `<building> LOCATION` is created,
placed at the centre of the overall all-buildings bounding box above its
maximum height, and attached to that building's sheet (it sits in the
building's SheetOut together with its DRAWING document information). -/
theorem claim_C5 (g : Generator) (sid : Nat) (b : Building) (out : SheetOut)
    (h : processBuilding g sid b = some out)
    (hmulti : 1 < g.buildings.length) :
    out.locationPlan.map (fun d => d.name) = some (b.name ++ " LOCATION") ∧
    out.locationPlan.map (fun d => d.point) =
      some ⟨g.bboxAllMid.x, g.bboxAllMid.y, g.bboxAllMax.z + 1⟩ ∧
    out.locationPlan.map (fun d => d.docInfo) =
      some (attachDocInfo (b.name ++ " LOCATION")) := by
  obtain ⟨bb, hbb⟩ := processBuilding_bbox g sid b out h
  obtain ⟨hp, he, hl⟩ := processBuilding_fields g sid b out bb h hbb
  rw [hl, if_pos hmulti]
  exact ⟨rfl, rfl, rfl⟩

/-- C5 witness: building B1 of the two-building model gets a location plan
at the centre of the overall bounding box, one above its maximum height. -/
theorem claim_C5_witness :
    processBuilding exTwoGen 1 exB1 = some exTwoOut1 ∧
    1 < exTwoGen.buildings.length ∧
    exTwoOut1.locationPlan.map (fun d => d.name) =
      some (exB1.name ++ " LOCATION") ∧
    exTwoOut1.locationPlan.map (fun d => d.point) =
      some ⟨exTwoGen.bboxAllMid.x, exTwoGen.bboxAllMid.y,
            exTwoGen.bboxAllMax.z + 1⟩ :=
  ⟨rfl, by decide,
   (claim_C5 exTwoGen 1 exB1 exTwoOut1 rfl (by decide)).1,
   (claim_C5 exTwoGen 1 exB1 exTwoOut1 rfl (by decide)).2.1⟩

/-- C5 counterexample: in a single-building model the building is processed
(its sheet exists) but no location plan is created, refuting "for every
building processed, a location plan annotation is created". -/
theorem claim_C5_cex :
    (pipelineOf exDupFile).map (fun outs => outs.map (fun o => o.locationPlan.isSome)) =
      some [false] ∧
    (pipelineOf exDupFile).map (fun outs => outs.map (fun o => o.sheet.info.name)) =
      some [some "Alpha"] :=
  ⟨by decide, by decide⟩

/-- C6: a storey with no decomposition yields no labels; otherwise every
space of the first decomposition relationship yields exactly one TEXT/TEXT
annotation at the space centroid with z = elevation + 0.1, assigned to the
space, with EPset_Annotation Classes=header; each plan drawing's label
list is exactly `create_space_labels` of its storey and elevation, so the
labels belong to that storey's plan-drawing group; and each plan entry's
elevation key is its storey's elevation, so the label z offset is the
storey elevation plus 0.1. -/
theorem claim_C6 (st : Storey) (e : ℚ) :
    (st.isDecomposedBy = [] → create_space_labels st e = []) ∧
    (∀ spaces rest, st.isDecomposedBy = spaces :: rest →
      (create_space_labels st e).length = spaces.length ∧
      ∀ j sp, spaces.get? j = some sp →
        (create_space_labels st e).get? j = some
          { name := "TEXT", objType := "TEXT",
            point := ⟨(get_centroid sp).x, (get_centroid sp).y, e + 0.1⟩,
            space := sp,
            annProps := [("Classes", PVal.s "header")] }) ∧
    (∀ g sid b out bb j kv, processBuilding g sid b = some out →
      get_bbox [b] = some bb → (planEntries b).get? j = some kv →
      out.plans.get? j = some
        ((create_plan_drawing kv.2 bb g.scale j).2,
         create_space_labels kv.2 kv.1)) ∧
    (∀ (b : Building) (kv : ℚ × Storey), kv ∈ planEntries b →
      kv.1 = kv.2.elevation) := by
  refine ⟨?_, ?_, ?_, ?_⟩
  · intro hdec
    unfold create_space_labels
    rw [hdec]
  · intro spaces rest hdec
    constructor
    · unfold create_space_labels
      rw [hdec]
      exact List.length_map spaces _
    · intro j sp hj
      unfold create_space_labels
      rw [hdec, List.get?_map, hj]
      rfl
  · intro g sid b out bb j kv h hbb hkv
    exact processBuilding_plan_get g sid b out bb h hbb j kv hkv
  · intro b kv hkv
    exact (lastWith_elev b.storeys kv.1 kv.2 (planEntries_last b kv hkv)).symm

/-- C6 witness: the decomposed example storey yields exactly one label, for
its single space, at the centroid with z = 0 + 0.1. -/
theorem claim_C6_witness :
    exStoreyDec.isDecomposedBy = [exSpace] :: [] ∧
    (create_space_labels exStoreyDec 0).length = 1 ∧
    (create_space_labels exStoreyDec 0).get? 0 = some
      { name := "TEXT", objType := "TEXT",
        point := ⟨(get_centroid exSpace).x, (get_centroid exSpace).y,
                  (0 : ℚ) + 0.1⟩,
        space := exSpace,
        annProps := [("Classes", PVal.s "header")] } :=
  ⟨rfl,
   ((claim_C6 exStoreyDec 0).2.1 [exSpace] [] rfl).1,
   ((claim_C6 exStoreyDec 0).2.1 [exSpace] [] rfl).2 0 exSpace rfl⟩

/-- C8: every plan drawing's EPset_Drawing carries Scale `1/<s>` and
HumanScale `1:<s>` with s the integer truncation of the generator scale and
TargetView PLAN_VIEW; every elevation drawing carries the same scale
strings but TargetView overwritten to ELEVATION_VIEW plus an Include filter
naming the building; the location plan uses ten times the generator scale
and keeps TargetView PLAN_VIEW. -/
theorem claim_C8 (g : Generator) (sid : Nat) (b : Building) (out : SheetOut)
    (bb : Point × Point × Point) (h : processBuilding g sid b = some out)
    (hbb : get_bbox [b] = some bb) :
    (∀ j pr, out.plans.get? j = some pr →
      psetLookup pr.1.props "Scale" =
        some (PVal.s ("1/" ++ toString (pyInt g.scale))) ∧
      psetLookup pr.1.props "HumanScale" =
        some (PVal.s ("1:" ++ toString (pyInt g.scale))) ∧
      psetLookup pr.1.props "TargetView" = some (PVal.s "PLAN_VIEW")) ∧
    (∀ j d, out.elevations.get? j = some d →
      psetLookup d.props "Scale" =
        some (PVal.s ("1/" ++ toString (pyInt g.scale))) ∧
      psetLookup d.props "HumanScale" =
        some (PVal.s ("1:" ++ toString (pyInt g.scale))) ∧
      psetLookup d.props "TargetView" = some (PVal.s "ELEVATION_VIEW") ∧
      psetLookup d.props "Include" =
        some (PVal.s ("IfcTypeProduct, IfcProduct, location=\"" ++ b.name ++ "\""))) ∧
    (∀ d, out.locationPlan = some d →
      psetLookup d.props "Scale" =
        some (PVal.s ("1/" ++ toString (pyInt (g.scale * 10)))) ∧
      psetLookup d.props "HumanScale" =
        some (PVal.s ("1:" ++ toString (pyInt (g.scale * 10)))) ∧
      psetLookup d.props "TargetView" = some (PVal.s "PLAN_VIEW")) := by
  obtain ⟨hp, he, hl⟩ := processBuilding_fields g sid b out bb h hbb
  refine ⟨?_, ?_, ?_⟩
  · intro j pr hpr
    rw [hp, plansLoop_get?] at hpr
    cases hkv : (planEntries b).get? j with
    | none => rw [hkv] at hpr; cases hpr
    | some kv =>
        rw [hkv] at hpr
        simp only [Option.map_some'] at hpr
        have hpr2 := Option.some.inj hpr
        rw [← hpr2]
        dsimp only
        rw [planProps_proj]
        exact planPset_eval g.scale
  · intro j d hd
    rw [he, elevLoop4] at hd
    match j, hd with
    | 0, hd =>
        rw [← Option.some.inj hd, elevProps_proj]
        exact elevPset_eval g.scale b.name
    | 1, hd =>
        rw [← Option.some.inj hd, elevProps_proj]
        exact elevPset_eval g.scale b.name
    | 2, hd =>
        rw [← Option.some.inj hd, elevProps_proj]
        exact elevPset_eval g.scale b.name
    | 3, hd =>
        rw [← Option.some.inj hd, elevProps_proj]
        exact elevPset_eval g.scale b.name
    | n + 4, hd => cases hd
  · intro d hd
    rw [hl] at hd
    by_cases hm : 1 < g.buildings.length
    · rw [if_pos hm] at hd
      rw [← Option.some.inj hd, locProps_proj]
      exact locPset_eval (g.scale * 10) b.name
    · rw [if_neg hm] at hd
      cases hd

/-- C8 witness: the first plan drawing of building B1 carries Scale 1/100
and TargetView PLAN_VIEW in its EPset_Drawing. -/
theorem claim_C8_witness :
    exTwoOut1.plans.get? 0 = some exTwoOut1Plan0 ∧
    psetLookup exTwoOut1Plan0.1.props "Scale" =
      some (PVal.s ("1/" ++ toString (pyInt exTwoGen.scale))) ∧
    psetLookup exTwoOut1Plan0.1.props "TargetView" =
      some (PVal.s "PLAN_VIEW") :=
  ⟨rfl,
   ((claim_C8 exTwoGen 1 exB1 exTwoOut1 exB1bb rfl rfl).1 0 exTwoOut1Plan0 rfl).1,
   ((claim_C8 exTwoGen 1 exB1 exTwoOut1 exB1bb rfl rfl).1 0 exTwoOut1Plan0 rfl).2.2⟩

/-- C10: plan drawings are deduplicated by storey elevation: the plan
entries carry pairwise distinct elevations, each entry holds the last
storey encountered at its elevation, and the sheet's plans (with their
space labels) correspond one to one to those entries. -/
theorem claim_C10 (g : Generator) (sid : Nat) (b : Building) (out : SheetOut)
    (bb : Point × Point × Point) (h : processBuilding g sid b = some out)
    (hbb : get_bbox [b] = some bb) :
    ((planEntries b).map Prod.fst).Nodup ∧
    (∀ kv, kv ∈ planEntries b → lastWith b.storeys kv.1 = some kv.2) ∧
    out.plans.length = (planEntries b).length ∧
    (∀ j kv, (planEntries b).get? j = some kv →
      out.plans.get? j = some
        ((create_plan_drawing kv.2 bb g.scale j).2,
         create_space_labels kv.2 kv.1)) := by
  obtain ⟨hp, he, hl⟩ := processBuilding_fields g sid b out bb h hbb
  refine ⟨planEntries_keys_nodup b, fun kv hkv => planEntries_last b kv hkv,
    ?_, fun j kv hkv => processBuilding_plan_get g sid b out bb h hbb j kv hkv⟩
  rw [hp, plansLoop_length]

/-- C10 witness: of the two storeys S1, S2 sharing elevation 0, only the
last one encountered, S2, gets the single plan drawing. -/
theorem claim_C10_witness :
    processBuilding exDupGen 1 exDupB = some exDupOut ∧
    exDupOut.plans.length = (planEntries exDupB).length ∧
    lastWith exDupB.storeys 0 = some ⟨"S2", 0, []⟩ :=
  ⟨rfl,
   (claim_C10 exDupGen 1 exDupB exDupOut exDupBb rfl rfl).2.2.1,
   (claim_C10 exDupGen 1 exDupB exDupOut exDupBb rfl rfl).2.1
     (0, ⟨"S2", 0, []⟩) (by decide)⟩

end Endrawing
